import Mathlib

/-
Shallow embedding of the link-base user-account service.

The embedding models the service layer (UserService, ReferralService), the
Postgres repositories (UserPostgres, RefreshTokenPostgres, ReferralPostgres)
and the Redis referral cache (ReferralRedis) as pure state-passing functions.

Modelling conventions:
  * uuid.UUID is modelled as Nat; uuid.Nil is 0.  google/uuid satisfies
    Parse (u.String()) = u, so the String/Parse round trip in the cache is
    the identity and uids are stored directly.
  * time.Time is modelled as Nat (an abstract clock, `St.now`); a SQL
    `expires_at > NOW()` comparison becomes `now < expiresAt`.
  * Each fallible external effect (SQL exec/query, Redis get/set, JWT
    signing, entropy) is driven by an `Env` of injected outcomes: a Bool
    flag makes the corresponding call fail with the error the Go code
    would see, and generator outputs (fresh uuid, fresh opaque token) are
    supplied as Env fields.
  * The SQL tables are lists of rows; `ON CONFLICT ... DO NOTHING` and
    `DO UPDATE` are modelled exactly as the queries state them.  Foreign
    key violations are subsumed under the generic exec-failure flags.
-/

namespace LinkBase

/-- Row of the `users` table (domain.User). -/
structure UserRow where
  userId : Nat
  email : String
  passwordHash : String
deriving DecidableEq, Repr

/-- Row of the `refresh_token` table (domain.RefreshToken). -/
structure TokenRow where
  userId : Nat
  refreshToken : String
  expiresAt : Nat
deriving DecidableEq, Repr

/-- Row of the `referral` table (domain.ReferralUser): `userId` was referred
by `referredBy`. -/
structure EdgeRow where
  userId : Nat
  referredBy : Nat
deriving DecidableEq, Repr

/-- Row of the `referral_code` table. -/
structure CodeRow where
  userId : Nat
  code : String
  expiresAt : Nat
deriving DecidableEq, Repr

/-- One Redis key: referral code mapped to the issuing user, with an
absolute expiry instant (SET with TTL). -/
structure CacheEntry where
  code : String
  userId : Nat
  expiresAt : Nat
deriving DecidableEq, Repr

/-- The Postgres database state. -/
structure DBState where
  users : List UserRow
  tokens : List TokenRow
  edges : List EdgeRow
  codes : List CodeRow
deriving DecidableEq, Repr

/-- Full machine state: database, Redis cache, and the clock. -/
structure St where
  db : DBState
  cache : List CacheEntry
  now : Nat
deriving DecidableEq, Repr

/-- Errors observable from the service layer.  `wrap ctx e` models
`fmt.Errorf` with a `%w` verb: the context string is the literal message
prefix used in the Go code. -/
inductive Err where
  | sqlNoRows
  | sqlConnErr
  | execErr
  | beginTxErr
  | commitErr
  | hashErr
  | signErr
  | randomErr
  | invalidCredentials
  | emailInUse
  | referralCodeNotFound (code : String)
  | redisConnErr
  | codeExists (code : String)
  | wrap (ctx : String) (e : Err)
deriving DecidableEq, Repr

instance {ε α : Type} [DecidableEq ε] [DecidableEq α] : DecidableEq (Except ε α) := fun x y =>
  match x, y with
  | .ok a, .ok b =>
    if h : a = b then isTrue (by rw [h]) else isFalse (fun hc => by injection hc; contradiction)
  | .ok _, .error _ => isFalse (fun hc => Except.noConfusion hc)
  | .error a, .error b =>
    if h : a = b then isTrue (by rw [h]) else isFalse (fun hc => by injection hc; contradiction)
  | .error _, .ok _ => isFalse (fun hc => Except.noConfusion hc)

/-- Injected outcomes of all external effects for one service call.

Modelled from the spec: the password hashing primitive (pkg/hash
SHA1Hasher), the token issuer (pkg/auth Manager) and the JWT config
(internal/config) are not under src/, so they are modelled from the
spec's contracts: `hashFn` is the deterministic hashing primitive
(compared "case-sensitively and exactly"); `newRefreshToken` is the
output of IssueRefreshToken, a cryptographically random opaque string
whose "uniqueness relies on randomness, not on a uniqueness check
against the store" (hence an arbitrary injected value, `none` meaning a
RandomnessError); `jwtFails` is IssueAccessToken's SigningError. -/
structure Env where
  hashFn : String → String
  hashFails : Bool
  findByEmailDBFails : Bool
  beginTxFails : Bool
  userInsertFails : Bool
  edgeInsertFails : Bool
  commitFails : Bool
  newUserId : Nat
  jwtFails : Bool
  newRefreshToken : Option String
  refreshInsertFails : Bool
  tokenQueryFails : Bool
  codeQueryFails : Bool
  codeInsertFails : Bool
  cacheSetFails : Bool
  redisGetConnFails : Bool
  accessTokenTTL : Nat
  refreshTokenTTL : Nat

/-- domain.Referral: a referral code with its issuer and TTL. -/
structure Referral where
  referralCode : String
  userId : Nat
  ttl : Nat
deriving DecidableEq, Repr

/-- service.Tokens: the session pair returned to the caller. -/
structure Tokens where
  accessToken : String
  refreshToken : String
deriving DecidableEq, Repr

/-- service.SignInInput. -/
structure SignInInput where
  email : String
  password : String

/-- service.SignUpInput. -/
structure SignUpInput where
  email : String
  password : String
  referralCode : String

/-- service.CreateUserInput (referralId = 0 encodes uuid.Nil). -/
structure CreateUserInput where
  email : String
  password : String
  referralId : Nat

/-- service.ReferralInput. -/
structure ReferralInput where
  userId : Nat
  ttl : Nat

/-- Modelled from the spec: IssueAccessToken produces a signed
time-bounded token encoding the subject and an expiry claim; claims never
inspect its contents, so it is an injective encoding of its inputs. -/
def newJWT (userId ttl : Nat) : String :=
  "jwt." ++ toString userId ++ "." ++ toString ttl

/-- Redis GET: the first live entry stored under the key, if any
(an expired key behaves as absent). -/
def cacheLookup (st : St) (key : String) : Option CacheEntry :=
  st.cache.find? (fun e => e.code == key && decide (st.now < e.expiresAt))

/-- Redis SET with TTL: overwrites any previous value of the key. -/
def cacheSet (c : List CacheEntry) (code : String) (uid expAt : Nat) : List CacheEntry :=
  { code := code, userId := uid, expiresAt := expAt } :: c.filter (fun e => !(e.code == code))

/-- ReferralRedis.FindByReferralCode: GET, mapping redis.Nil to a
code-not-found error and any other client error to a wrapped Redis
error; the stored uid string parses back to the uid itself. -/
def findByReferralCode (env : Env) (st : St) (referralCode : String) : Except Err Nat :=
  if env.redisGetConnFails then
    .error (.wrap "error getting referral code from Redis" .redisConnErr)
  else
    match cacheLookup st referralCode with
    | none => .error (.referralCodeNotFound referralCode)
    | some e => .ok e.userId

/-- ReferralRedis.Create: SET code -> issuer uid with TTL. -/
def referralRedisCreate (env : Env) (st : St) (referral : Referral) : Except Err St :=
  if env.cacheSetFails then
    .error (.wrap "error setting referral code in Redis" .redisConnErr)
  else
    .ok { st with cache := cacheSet st.cache referral.referralCode referral.userId (st.now + referral.ttl) }

/-- UserPostgres.FindByEmail: SELECT ... WHERE email = $1 LIMIT 1, wrapping
both the no-rows case and a connection failure as "user not found: %w". -/
def findByEmail (env : Env) (st : St) (email : String) : Except Err UserRow :=
  if env.findByEmailDBFails then
    .error (.wrap "user not found" .sqlConnErr)
  else
    match st.db.users.find? (fun u => u.email == email) with
    | some u => .ok u
    | none => .error (.wrap "user not found" .sqlNoRows)

/-- UserPostgres.Create (inside the sign-up transaction):
INSERT INTO users ... ON CONFLICT (email) DO NOTHING.  A primary-key
collision on user_id is still an error. -/
def userCreate (env : Env) (db : DBState) (u : UserRow) : Except Err DBState :=
  if env.userInsertFails then .error .execErr
  else if db.users.any (fun v => v.email == u.email) then .ok db
  else if db.users.any (fun v => v.userId == u.userId) then .error .execErr
  else .ok { db with users := db.users ++ [u] }

/-- ReferralPostgres.CreateReferral (inside the sign-up transaction):
INSERT INTO referral ... ON CONFLICT (user_id) DO NOTHING. -/
def createReferral (env : Env) (db : DBState) (e : EdgeRow) : Except Err DBState :=
  if env.edgeInsertFails then .error .execErr
  else if db.edges.any (fun r => r.userId == e.userId) then .ok db
  else .ok { db with edges := db.edges ++ [e] }

/-- RefreshTokenPostgres.Create: INSERT INTO refresh_token ...
ON CONFLICT (user_id, refresh_token) DO UPDATE SET expires_at = $3. -/
def refreshTokenCreate (env : Env) (db : DBState) (t : TokenRow) : Except Err DBState :=
  if env.refreshInsertFails then
    .error (.wrap "error inserting or updating refresh token" .execErr)
  else if db.tokens.any (fun r => r.userId == t.userId && r.refreshToken == t.refreshToken) then
    .ok { db with tokens := db.tokens.map (fun r => if r.userId == t.userId && r.refreshToken == t.refreshToken then t else r) }
  else
    .ok { db with tokens := db.tokens ++ [t] }

/-- RefreshTokenPostgres.FindByRefreshToken: SELECT ... WHERE
refresh_token = $1 AND expires_at > NOW() LIMIT 1, wrapping any failure
as "refresh token not found: %w". -/
def findByRefreshToken (env : Env) (st : St) (token : String) : Except Err TokenRow :=
  if env.tokenQueryFails then
    .error (.wrap "refresh token not found" .sqlConnErr)
  else
    match st.db.tokens.find? (fun r => r.refreshToken == token && decide (st.now < r.expiresAt)) with
    | some r => .ok r
    | none => .error (.wrap "refresh token not found" .sqlNoRows)

/-- The liveness filter of FindCodeByUserID:
`WHERE user_id = $1 AND expires_at > NOW()`. -/
def liveCodeFor (uid t : Nat) (c : CodeRow) : Bool :=
  c.userId == uid && decide (t < c.expiresAt)

/-- The upsert of CreateReferralCode:
ON CONFLICT (user_id, code) DO UPDATE SET code = $2, expires_at = $3. -/
def upsertCode (codes : List CodeRow) (row : CodeRow) : List CodeRow :=
  if codes.any (fun c => c.userId == row.userId && c.code == row.code) then
    codes.map (fun c => if c.userId == row.userId && c.code == row.code then row else c)
  else
    codes ++ [row]

/-- ReferralPostgres.CreateReferralCode: upsert of the code row with
expires_at = now + ttl. -/
def createReferralCode (env : Env) (st : St) (referral : Referral) : Except Err DBState :=
  if env.codeInsertFails then
    .error (.wrap "error inserting or updating referral" .execErr)
  else
    let row : CodeRow := { userId := referral.userId, code := referral.referralCode, expiresAt := st.now + referral.ttl }
    .ok { st.db with codes := upsertCode st.db.codes row }

/-- ReferralPostgres.FindCodeByUserID, returning the Go pair
`([]domain.Referral, error)`.  sqlx's SelectContext appends scanned rows
to a nil slice, so the slice is nil (`none`) exactly when the query
errored or matched no live row; a non-nil slice is never empty. -/
def findCodeByUserID (env : Env) (st : St) (id : Nat) : Option (List CodeRow) × Option Err :=
  if env.codeQueryFails then (none, some .sqlConnErr)
  else
    let live := st.db.codes.filter (liveCodeFor id st.now)
    if live.isEmpty then (none, none) else (some live, none)

/-- UserService.createSession: issue JWT and refresh token, persist the
refresh-token row (outside any transaction), return the pair. -/
def createSession (env : Env) (st : St) (userId : Nat) : Except Err Tokens × St :=
  if env.jwtFails then (.error .signErr, st)
  else
    match env.newRefreshToken with
    | none => (.error .randomErr, st)
    | some rt =>
      match refreshTokenCreate env st.db { userId := userId, refreshToken := rt, expiresAt := st.now + env.refreshTokenTTL } with
      | .error e => (.error e, st)
      | .ok db2 => (.ok { accessToken := newJWT userId env.accessTokenTTL, refreshToken := rt }, { st with db := db2 })

/-- The transactional write phase of UserService.createUser (from BeginTxx
to Commit), plus the post-commit createSession.  Writes are applied to a
transaction-local copy of the database; an error on either insert (or on
commit) triggers the deferred rollback, discarding the copy. -/
def createUserWrites (env : Env) (st : St) (user : UserRow) (referralId : Nat) : Except Err Tokens × St :=
  match userCreate env st.db user with
  | .error e => (.error e, st)
  | .ok txdb1 =>
    if referralId ≠ 0 then
      match createReferral env txdb1 { userId := user.userId, referredBy := referralId } with
      | .error e => (.error e, st)
      | .ok txdb2 =>
        if env.commitFails then (.error .commitErr, st)
        else createSession env { st with db := txdb2 } user.userId
    else
      if env.commitFails then (.error .commitErr, st)
      else createSession env { st with db := txdb1 } user.userId

/-- UserService.createUser: pre-check FindByEmail (any error means "email
available"), hash the password, generate a uuid, then run the write
phase. -/
def createUser (env : Env) (st : St) (input : CreateUserInput) : Except Err Tokens × St :=
  match findByEmail env st input.email with
  | .ok _ => (.error .emailInUse, st)
  | .error _ =>
    if env.hashFails then (.error .hashErr, st)
    else if env.beginTxFails then (.error .beginTxErr, st)
    else
      createUserWrites env st
        { userId := env.newUserId, email := input.email, passwordHash := env.hashFn input.password }
        input.referralId

/-- UserService.SignIn. -/
def signIn (env : Env) (st : St) (input : SignInInput) : Except Err Tokens × St :=
  if env.hashFails then (.error .hashErr, st)
  else
    match findByEmail env st input.email with
    | .error e => (.error e, st)
    | .ok user =>
      if user.passwordHash ≠ env.hashFn input.password then (.error .invalidCredentials, st)
      else createSession env st user.userId

/-- UserService.SignUp: resolve a non-empty referral code through the
cache (wrapping any failure), then delegate to createUser. -/
def signUp (env : Env) (st : St) (input : SignUpInput) : Except Err Tokens × St :=
  if input.referralCode ≠ "" then
    match findByReferralCode env st input.referralCode with
    | .error e => (.error (.wrap "failed to find referral code" e), st)
    | .ok referralId =>
      createUser env st { email := input.email, password := input.password, referralId := referralId }
  else
    createUser env st { email := input.email, password := input.password, referralId := 0 }

/-- UserService.RefreshTokens. -/
def refreshTokens (env : Env) (st : St) (refreshToken : String) : Except Err Tokens × St :=
  match findByRefreshToken env st refreshToken with
  | .error e => (.error (.wrap "failed to find refresh token" e), st)
  | .ok session => createSession env st session.userId

/-- Outcome of ReferralService.CreateCode; `panicIndexOOB` is the Go
runtime panic raised by an out-of-bounds `res[0]`. -/
inductive COut where
  | panicIndexOOB
  | err (e : Err)
  | ok (code : String)
deriving DecidableEq, Repr

/-- The body of ReferralService.CreateCode after code generation,
abstracted over the `(res, err)` pair returned by the
repository.Referral.FindCodeByUserID interface call.  Faithful to the
source order: `res != nil` is checked (and `res[0]` read) before the
query's own error is examined. -/
def createCodeWith (find : Option (List CodeRow) × Option Err) (referralCode : String)
    (env : Env) (st : St) (input : ReferralInput) : COut × St :=
  match find.1 with
  | some res =>
    match res with
    | [] => (.panicIndexOOB, st)
    | c :: _ => (.err (.codeExists c.code), st)
  | none =>
    match find.2 with
    | some e => (.err e, st)
    | none =>
      let referral : Referral := { referralCode := referralCode, userId := input.userId, ttl := input.ttl }
      match createReferralCode env st referral with
      | .error e => (.err e, st)
      | .ok db2 =>
        let st2 := { st with db := db2 }
        match referralRedisCreate env st2 referral with
        | .error e => (.err e, st2)
        | .ok st3 => (.ok referralCode, st3)

/-- ReferralService.CreateCode: generate a code (via the refresh-token
generator), then run the body on the concrete repository result. -/
def createCode (env : Env) (st : St) (input : ReferralInput) : COut × St :=
  match env.newRefreshToken with
  | none => (.err .randomErr, st)
  | some referralCode => createCodeWith (findCodeByUserID env st input.userId) referralCode env st input

/-- A concrete deterministic stand-in for the hashing primitive, used by
witness states. -/
def hashC (s : String) : String := "h:" ++ s

/-- An all-succeeding environment for witnesses. -/
def envOK : Env where
  hashFn := hashC
  hashFails := false
  findByEmailDBFails := false
  beginTxFails := false
  userInsertFails := false
  edgeInsertFails := false
  commitFails := false
  newUserId := 7
  jwtFails := false
  newRefreshToken := some "rt1"
  refreshInsertFails := false
  tokenQueryFails := false
  codeQueryFails := false
  codeInsertFails := false
  cacheSetFails := false
  redisGetConnFails := false
  accessTokenTTL := 10
  refreshTokenTTL := 100

/-- The empty machine state. -/
def st0 : St where
  db := { users := [], tokens := [], edges := [], codes := [] }
  cache := []
  now := 0

/-! ### Frame lemmas -/

theorem refreshTokenCreate_ok_frame {env : Env} {db db2 : DBState} {t : TokenRow}
    (h : refreshTokenCreate env db t = .ok db2) :
    db2.users = db.users ∧ db2.edges = db.edges ∧ db2.codes = db.codes := by
  unfold refreshTokenCreate at h
  split at h
  · exact absurd h (by simp)
  · split at h <;> (injection h with h; subst h; exact ⟨rfl, rfl, rfl⟩)

theorem createSession_frame (env : Env) (st : St) (uid : Nat) :
    (createSession env st uid).2.db.users = st.db.users ∧
    (createSession env st uid).2.db.edges = st.db.edges ∧
    (createSession env st uid).2.db.codes = st.db.codes ∧
    (createSession env st uid).2.cache = st.cache ∧
    (createSession env st uid).2.now = st.now := by
  unfold createSession
  split
  · exact ⟨rfl, rfl, rfl, rfl, rfl⟩
  · split
    · exact ⟨rfl, rfl, rfl, rfl, rfl⟩
    · split
      · exact ⟨rfl, rfl, rfl, rfl, rfl⟩
      · rename_i db2 h
        have := refreshTokenCreate_ok_frame h
        exact ⟨this.1, this.2.1, this.2.2, rfl, rfl⟩

/-! ### List search helper lemmas -/

theorem find?_append_of_some {α : Type} {p : α → Bool} {l1 : List α} (l2 : List α) {a : α}
    (h : l1.find? p = some a) : (l1 ++ l2).find? p = some a := by
  induction l1 with
  | nil => simp at h
  | cons x xs ih =>
    rw [List.cons_append]
    by_cases hx : p x
    · rw [List.find?_cons_of_pos _ hx] at h
      rw [List.find?_cons_of_pos _ hx]
      exact h
    · have hx' : p x = false := by simpa using hx
      rw [List.find?_cons_of_neg _ (by simp [hx'])] at h
      rw [List.find?_cons_of_neg _ (by simp [hx'])]
      exact ih h

theorem find?_of_weaker {α : Type} {p q : α → Bool} (h : ∀ a, p a = false → q a = false)
    {l : List α} {a : α} (hf : l.find? p = some a) (hq : q a = true) : l.find? q = some a := by
  induction l with
  | nil => simp at hf
  | cons x xs ih =>
    by_cases hx : p x
    · rw [List.find?_cons_of_pos _ hx] at hf
      injection hf with hf
      subst hf
      exact List.find?_cons_of_pos _ hq
    · have hx' : p x = false := by simpa using hx
      have hqx : q x = false := h x hx'
      rw [List.find?_cons_of_neg _ (by simp [hx'])] at hf
      rw [List.find?_cons_of_neg _ (by simp [hqx])]
      exact ih hf

/-! ### C1: atomicity of the sign-up transaction -/

/-- C1: for a sign-up that reaches the transactional write phase (the
email pre-check found no user, hashing and BeginTxx succeeded), the User
insert and the ReferralEdge insert are atomic: if either write fails the
call errors and the whole state is left untouched (rollback), and when
both writes and the commit succeed, the committed database contains the
new User row and, when a referral issuer was resolved, the new
ReferralEdge row. -/
theorem signup_tx_atomic (env : Env) (st : St) (input : CreateUserInput)
    (hfind : ∃ e, findByEmail env st input.email = Except.error e)
    (hhash : env.hashFails = false) (htx : env.beginTxFails = false) :
    ((env.userInsertFails = true ∨ (input.referralId ≠ 0 ∧ env.edgeInsertFails = true)) →
      (∃ e, (createUser env st input).1 = Except.error e) ∧ (createUser env st input).2 = st)
    ∧
    (env.userInsertFails = false → env.edgeInsertFails = false → env.commitFails = false →
      (∀ u ∈ st.db.users, u.email ≠ input.email) →
      (∀ u ∈ st.db.users, u.userId ≠ env.newUserId) →
      (∀ e ∈ st.db.edges, e.userId ≠ env.newUserId) →
      ({ userId := env.newUserId, email := input.email, passwordHash := env.hashFn input.password } : UserRow)
          ∈ (createUser env st input).2.db.users
      ∧ (input.referralId ≠ 0 →
          ({ userId := env.newUserId, referredBy := input.referralId } : EdgeRow)
              ∈ (createUser env st input).2.db.edges)) := by
  obtain ⟨e0, hf⟩ := hfind
  have hcu : createUser env st input =
      createUserWrites env st
        { userId := env.newUserId, email := input.email, passwordHash := env.hashFn input.password }
        input.referralId := by
    unfold createUser
    rw [hf]
    simp [hhash, htx]
  constructor
  · rintro (h1 | ⟨h2a, h2b⟩)
    · rw [hcu]
      unfold createUserWrites userCreate
      simp [h1]
    · rw [hcu]
      unfold createUserWrites
      cases huc : userCreate env st.db
          { userId := env.newUserId, email := input.email, passwordHash := env.hashFn input.password } with
      | error e => simp [huc]
      | ok txdb1 =>
        simp [huc, h2a]
        unfold createReferral
        simp [h2b]
  · intro hui hei hci hemail huid hedge
    rw [hcu]
    have hanyE : st.db.users.any (fun v => v.email == input.email) = false := by
      simp only [List.any_eq_false]
      intro u hu
      simpa using hemail u hu
    have hanyI : st.db.users.any (fun v => v.userId == env.newUserId) = false := by
      simp only [List.any_eq_false]
      intro u hu
      simpa using huid u hu
    have huc : userCreate env st.db
        { userId := env.newUserId, email := input.email, passwordHash := env.hashFn input.password } =
        .ok ⟨st.db.users ++ [{ userId := env.newUserId, email := input.email, passwordHash := env.hashFn input.password }],
             st.db.tokens, st.db.edges, st.db.codes⟩ := by
      unfold userCreate
      simp [hui, hanyE, hanyI]
    by_cases hr : input.referralId = 0
    · have hred : createUserWrites env st
          { userId := env.newUserId, email := input.email, passwordHash := env.hashFn input.password }
          input.referralId =
          createSession env
            { st with db := ⟨st.db.users ++ [{ userId := env.newUserId, email := input.email, passwordHash := env.hashFn input.password }],
               st.db.tokens, st.db.edges, st.db.codes⟩ } env.newUserId := by
        unfold createUserWrites
        rw [huc]
        simp [hr, hci]
      rw [hred]
      refine ⟨?_, fun hr' => absurd hr hr'⟩
      rw [(createSession_frame env _ env.newUserId).1]
      simp
    · have hce : createReferral env
          ⟨st.db.users ++ [{ userId := env.newUserId, email := input.email, passwordHash := env.hashFn input.password }],
           st.db.tokens, st.db.edges, st.db.codes⟩
          { userId := env.newUserId, referredBy := input.referralId } =
          .ok ⟨st.db.users ++ [{ userId := env.newUserId, email := input.email, passwordHash := env.hashFn input.password }],
               st.db.tokens, st.db.edges ++ [{ userId := env.newUserId, referredBy := input.referralId }], st.db.codes⟩ := by
        unfold createReferral
        have hne : st.db.edges.any (fun r => r.userId == env.newUserId) = false := by
          simp only [List.any_eq_false]
          intro a ha
          simpa using hedge a ha
        simp [hei, hne]
      have hred : createUserWrites env st
          { userId := env.newUserId, email := input.email, passwordHash := env.hashFn input.password }
          input.referralId =
          createSession env
            { st with db := ⟨st.db.users ++ [{ userId := env.newUserId, email := input.email, passwordHash := env.hashFn input.password }],
               st.db.tokens, st.db.edges ++ [{ userId := env.newUserId, referredBy := input.referralId }], st.db.codes⟩ } env.newUserId := by
        unfold createUserWrites
        rw [huc]
        simp only [ne_eq, hr, not_false_eq_true, if_true, ite_true]
        rw [hce]
        simp [hci]
      rw [hred]
      constructor
      · rw [(createSession_frame env _ env.newUserId).1]
        simp
      · intro _
        rw [(createSession_frame env _ env.newUserId).2.1]
        simp

/-- Environment in which the User insert statement fails. -/
def envW1 : Env := { envOK with userInsertFails := true }

/-- C1 witness: at a concrete failing-insert environment the rollback
direction applies and leaves the state untouched. -/
theorem signup_tx_atomic_witness :
    (∃ e, findByEmail envW1 st0 "a@x" = Except.error e) ∧
    envW1.hashFails = false ∧ envW1.beginTxFails = false ∧
    (envW1.userInsertFails = true ∨ ((5 : Nat) ≠ 0 ∧ envW1.edgeInsertFails = true)) ∧
    ((∃ e, (createUser envW1 st0 ⟨"a@x", "pw", 5⟩).1 = Except.error e) ∧
      (createUser envW1 st0 ⟨"a@x", "pw", 5⟩).2 = st0) :=
  ⟨⟨Err.wrap "user not found" Err.sqlNoRows, rfl⟩, rfl, rfl, Or.inl rfl,
    (signup_tx_atomic envW1 st0 ⟨"a@x", "pw", 5⟩
      ⟨Err.wrap "user not found" Err.sqlNoRows, rfl⟩ rfl rfl).1 (Or.inl rfl)⟩

/-! ### C2: error kinds of SignIn for wrong password vs unknown email -/

theorem findByEmail_error_shape {env : Env} {st : St} {email : String} {e : Err}
    (h : findByEmail env st email = Except.error e) :
    e = .wrap "user not found" .sqlConnErr ∨ e = .wrap "user not found" .sqlNoRows := by
  unfold findByEmail at h
  split at h
  · left
    injection h with h
    exact h.symm
  · split at h
    · exact absurd h (by simp)
    · right
      injection h with h
      exact h.symm

/-- State with one registered user, email "a@x", password "pw". -/
def stC2 : St where
  db := { users := [{ userId := 1, email := "a@x", passwordHash := hashC "pw" }],
          tokens := [], edges := [], codes := [] }
  cache := []
  now := 0

/-- C2 counterexample: with one registered user, SignIn with the right
email but a wrong password returns the invalid-credentials error, while
SignIn with an unknown email returns the wrapped not-found lookup error;
the two error values are distinct, so a caller can distinguish them. -/
theorem signin_same_error_kind_cx :
    (signIn envOK stC2 { email := "a@x", password := "wrong" }).1 = .error .invalidCredentials
    ∧ (signIn envOK stC2 { email := "b@x", password := "pw" }).1
        = .error (.wrap "user not found" .sqlNoRows)
    ∧ Err.invalidCredentials ≠ Err.wrap "user not found" Err.sqlNoRows := by
  exact ⟨by decide, by decide, by decide⟩

/-- C2 amended: SignIn with a wrong password for an existing email fails
with the invalid-credentials error, while SignIn for an email whose
lookup fails returns the lookup's own error, which is never the
invalid-credentials error: the two cases are distinguishable by the
returned error. -/
theorem signin_error_kinds_differ (env : Env) (st : St) (email1 email2 pw1 pw2 : String)
    (u : UserRow)
    (hh : env.hashFails = false)
    (hfind : findByEmail env st email1 = .ok u)
    (hpw : u.passwordHash ≠ env.hashFn pw1)
    (hfind2 : ∃ e, findByEmail env st email2 = Except.error e) :
    (signIn env st { email := email1, password := pw1 }).1 = .error .invalidCredentials
    ∧ ∃ e, (signIn env st { email := email2, password := pw2 }).1 = .error e
        ∧ e ≠ .invalidCredentials := by
  constructor
  · unfold signIn
    simp only [hh, Bool.false_eq_true, if_false]
    rw [hfind]
    simp [hpw]
  · obtain ⟨e, he⟩ := hfind2
    refine ⟨e, ?_, ?_⟩
    · unfold signIn
      simp only [hh, Bool.false_eq_true, if_false]
      rw [he]
    · rcases findByEmail_error_shape he with h | h <;> simp [h]

/-- C2 amended witness. -/
theorem signin_error_kinds_differ_witness :
    envOK.hashFails = false ∧
    findByEmail envOK stC2 "a@x" = .ok { userId := 1, email := "a@x", passwordHash := hashC "pw" } ∧
    ({ userId := 1, email := "a@x", passwordHash := hashC "pw" } : UserRow).passwordHash
        ≠ envOK.hashFn "wrong" ∧
    (∃ e, findByEmail envOK stC2 "b@x" = Except.error e) ∧
    ((signIn envOK stC2 { email := "a@x", password := "wrong" }).1 = .error .invalidCredentials
      ∧ ∃ e, (signIn envOK stC2 { email := "b@x", password := "pw" }).1 = .error e
          ∧ e ≠ .invalidCredentials) :=
  ⟨rfl, by decide, by decide, ⟨Err.wrap "user not found" Err.sqlNoRows, by decide⟩,
    signin_error_kinds_differ envOK stC2 "a@x" "b@x" "wrong" "pw"
      { userId := 1, email := "a@x", passwordHash := hashC "pw" }
      rfl (by decide) (by decide) ⟨Err.wrap "user not found" Err.sqlNoRows, by decide⟩⟩

/-! ### C3: refresh is additive, the old refresh token row survives -/

theorem findByRefreshToken_ok_mem {env : Env} {st : St} {tok : String} {row : TokenRow}
    (h : findByRefreshToken env st tok = .ok row) :
    st.db.tokens.find? (fun r => r.refreshToken == tok && decide (st.now < r.expiresAt)) = some row := by
  unfold findByRefreshToken at h
  split at h
  · exact absurd h (by simp)
  · split at h
    · rename_i r hr
      injection h with h
      subst h
      exact hr
    · exact absurd h (by simp)

/-- State with one live refresh-token row (user 1, token "tok",
expiry 100) at clock 10. -/
def stC3 : St where
  db := { users := [], tokens := [{ userId := 1, refreshToken := "tok", expiresAt := 100 }],
          edges := [], codes := [] }
  cache := []
  now := 10

/-- Environment whose opaque-token generator happens to return the very
token being refreshed (possible because uniqueness relies on randomness
only). -/
def envC3 : Env := { envOK with newRefreshToken := some "tok" }

/-- C3 counterexample: when the freshly generated refresh token collides
with the presented one, the RefreshTokens call still succeeds but the
upsert on (user_id, refresh_token) rewrites the old row's expiry in
place: the old row is modified, and no new row is inserted. -/
theorem refresh_leaves_old_row_cx :
    (refreshTokens envC3 stC3 "tok").1
        = .ok { accessToken := newJWT 1 10, refreshToken := "tok" }
    ∧ ({ userId := 1, refreshToken := "tok", expiresAt := 100 } : TokenRow)
        ∉ (refreshTokens envC3 stC3 "tok").2.db.tokens := by
  exact ⟨by decide, by decide⟩

/-- C3 amended: a successful RefreshTokens call whose freshly generated
token is not already a token of the session's user leaves the old row
unchanged; the only token-store change is the appended new row, and the
old token remains independently usable (its lookup still succeeds) at
any later instant before its own expiry. -/
theorem refresh_is_additive (env : Env) (st : St) (tok nt : String) (row : TokenRow)
    (tks : Tokens)
    (hfind : findByRefreshToken env st tok = .ok row)
    (hnt : env.newRefreshToken = some nt)
    (hfresh : ∀ r ∈ st.db.tokens, ¬(r.userId = row.userId ∧ r.refreshToken = nt))
    (hsucc : (refreshTokens env st tok).1 = .ok tks) :
    (refreshTokens env st tok).2.db.tokens
        = st.db.tokens ++ [{ userId := row.userId, refreshToken := nt, expiresAt := st.now + env.refreshTokenTTL }]
    ∧ row ∈ (refreshTokens env st tok).2.db.tokens
    ∧ ∀ env2 : Env, ∀ t2 : Nat, env2.tokenQueryFails = false → st.now ≤ t2 → t2 < row.expiresAt →
        findByRefreshToken env2 { (refreshTokens env st tok).2 with now := t2 } tok = .ok row := by
  have hrt : refreshTokens env st tok = createSession env st row.userId := by
    unfold refreshTokens
    rw [hfind]
  have hfq := findByRefreshToken_ok_mem hfind
  have hrowmem : row ∈ st.db.tokens := List.mem_of_find?_eq_some hfq
  have hrowpred := List.find?_some hfq
  cases hj : env.jwtFails with
  | true =>
    rw [hrt] at hsucc
    unfold createSession at hsucc
    simp [hj] at hsucc
  | false =>
    have hany : st.db.tokens.any (fun r => r.userId == row.userId && r.refreshToken == nt) = false := by
      simp only [List.any_eq_false, Bool.and_eq_true, beq_iff_eq, not_and]
      intro r hr h1 h2
      exact hfresh r hr ⟨h1, h2⟩
    cases hins : env.refreshInsertFails with
    | true =>
      rw [hrt] at hsucc
      unfold createSession refreshTokenCreate at hsucc
      simp [hj, hnt, hins] at hsucc
    | false =>
      have hcs : createSession env st row.userId =
          (.ok { accessToken := newJWT row.userId env.accessTokenTTL, refreshToken := nt },
           { st with db := ⟨st.db.users,
              st.db.tokens ++ [{ userId := row.userId, refreshToken := nt, expiresAt := st.now + env.refreshTokenTTL }],
              st.db.edges, st.db.codes⟩ }) := by
        unfold createSession refreshTokenCreate
        simp [hj, hnt, hins, hany]
      rw [hrt, hcs]
      refine ⟨rfl, List.mem_append_left _ hrowmem, ?_⟩
      intro env2 t2 hq2 hle hlt
      have hweak : ∀ r : TokenRow,
          (r.refreshToken == tok && decide (st.now < r.expiresAt)) = false →
          (r.refreshToken == tok && decide (t2 < r.expiresAt)) = false := by
        intro r hp
        by_contra hc
        have hc' : (r.refreshToken == tok && decide (t2 < r.expiresAt)) = true := by
          simpa using hc
        simp only [Bool.and_eq_true, beq_iff_eq, decide_eq_true_eq] at hc'
        have htr : (r.refreshToken == tok && decide (st.now < r.expiresAt)) = true := by
          simp only [Bool.and_eq_true, beq_iff_eq, decide_eq_true_eq]
          exact ⟨hc'.1, lt_of_le_of_lt hle hc'.2⟩
        rw [htr] at hp
        simp at hp
      have hrp : (row.refreshToken == tok && decide (st.now < row.expiresAt)) = true := hrowpred
      simp only [Bool.and_eq_true, beq_iff_eq, decide_eq_true_eq] at hrp
      have hfind2 : (st.db.tokens ++
            [({ userId := row.userId, refreshToken := nt, expiresAt := st.now + env.refreshTokenTTL } : TokenRow)]).find?
          (fun r => r.refreshToken == tok && decide (t2 < r.expiresAt)) = some row := by
        apply find?_append_of_some
        apply find?_of_weaker hweak hfq
        simp only [Bool.and_eq_true, beq_iff_eq, decide_eq_true_eq]
        exact ⟨hrp.1, hlt⟩
      unfold findByRefreshToken
      simp only [hq2, Bool.false_eq_true, if_false]
      simp only [hfind2]

/-- C3 amended witness: a concrete successful refresh with a fresh
generated token appends the new row and keeps the old one. -/
theorem refresh_is_additive_witness :
    findByRefreshToken envOK stC3 "tok" = .ok { userId := 1, refreshToken := "tok", expiresAt := 100 } ∧
    envOK.newRefreshToken = some "rt1" ∧
    (∀ r ∈ stC3.db.tokens,
      ¬(r.userId = ({ userId := 1, refreshToken := "tok", expiresAt := 100 } : TokenRow).userId
          ∧ r.refreshToken = "rt1")) ∧
    (refreshTokens envOK stC3 "tok").1 = .ok { accessToken := newJWT 1 10, refreshToken := "rt1" } ∧
    (refreshTokens envOK stC3 "tok").2.db.tokens
      = stC3.db.tokens ++
        [{ userId := ({ userId := 1, refreshToken := "tok", expiresAt := 100 } : TokenRow).userId,
           refreshToken := "rt1", expiresAt := stC3.now + envOK.refreshTokenTTL }] :=
  ⟨by decide, rfl, by decide, by decide,
    (refresh_is_additive envOK stC3 "tok" "rt1"
      { userId := 1, refreshToken := "tok", expiresAt := 100 }
      { accessToken := newJWT 1 10, refreshToken := "rt1" }
      (by decide) rfl (by decide) (by decide)).1⟩

/-! ### Inversion of a successful CreateCode -/

theorem createCode_ok_inv {env : Env} {st : St} {input : ReferralInput} {code1 : String} {st2 : St}
    (h : createCode env st input = (.ok code1, st2)) :
    env.newRefreshToken = some code1 ∧
    env.codeQueryFails = false ∧
    st.db.codes.filter (liveCodeFor input.userId st.now) = [] ∧
    env.codeInsertFails = false ∧
    env.cacheSetFails = false ∧
    st2.db.codes = upsertCode st.db.codes
      { userId := input.userId, code := code1, expiresAt := st.now + input.ttl } ∧
    st2.db.users = st.db.users ∧ st2.db.tokens = st.db.tokens ∧ st2.db.edges = st.db.edges ∧
    st2.cache = cacheSet st.cache code1 input.userId (st.now + input.ttl) ∧
    st2.now = st.now := by
  unfold createCode at h
  cases hg : env.newRefreshToken with
  | none =>
    rw [hg] at h
    exact absurd h (by simp)
  | some c =>
    rw [hg] at h
    unfold createCodeWith findCodeByUserID at h
    cases hq : env.codeQueryFails with
    | true =>
      rw [hq] at h
      simp at h
    | false =>
      rw [hq] at h
      simp only [Bool.false_eq_true, if_false] at h
      cases hl : (st.db.codes.filter (liveCodeFor input.userId st.now)).isEmpty with
      | false =>
        rw [hl] at h
        simp only [Bool.false_eq_true, if_false] at h
        cases hlist : st.db.codes.filter (liveCodeFor input.userId st.now) with
        | nil => rw [hlist] at hl; simp at hl
        | cons hd tl =>
          rw [hlist] at h
          simp at h
      | true =>
        rw [hl] at h
        simp only [if_true] at h
        unfold createReferralCode at h
        cases hins : env.codeInsertFails with
        | true =>
          rw [hins] at h
          simp at h
        | false =>
          rw [hins] at h
          simp only [Bool.false_eq_true, if_false] at h
          unfold referralRedisCreate at h
          cases hcache : env.cacheSetFails with
          | true =>
            rw [hcache] at h
            simp at h
          | false =>
            rw [hcache] at h
            simp only [Bool.false_eq_true, if_false] at h
            obtain ⟨hc, hst⟩ := Prod.mk.injEq .. ▸ h
            injection hc with hc
            subst hc
            subst hst
            refine ⟨rfl, rfl, List.isEmpty_iff.mp hl, rfl, rfl, rfl, rfl, rfl, rfl, rfl, rfl⟩

/-! ### Filter lemmas about the referral-code table -/

theorem liveCodeFor_false_future {uid n1 t2 : Nat} {c : CodeRow}
    (h : liveCodeFor uid n1 c = false) (hle : n1 ≤ t2) : liveCodeFor uid t2 c = false := by
  unfold liveCodeFor at h ⊢
  by_contra hc
  have hc' : (c.userId == uid && decide (t2 < c.expiresAt)) = true := by simpa using hc
  simp only [Bool.and_eq_true, beq_iff_eq, decide_eq_true_eq] at hc'
  have : (c.userId == uid && decide (n1 < c.expiresAt)) = true := by
    simp only [Bool.and_eq_true, beq_iff_eq, decide_eq_true_eq]
    exact ⟨hc'.1, lt_of_le_of_lt hle hc'.2⟩
  rw [this] at h
  simp at h

theorem map_key_filter {row : CodeRow} {uid t2 : Nat} :
    ∀ codes : List CodeRow,
      codes.Pairwise (fun a b => a.userId ≠ b.userId ∨ a.code ≠ b.code) →
      (∀ c ∈ codes, liveCodeFor uid t2 c = false) →
      codes.any (fun c => c.userId == row.userId && c.code == row.code) = true →
      liveCodeFor uid t2 row = true →
      (codes.map (fun c => if c.userId == row.userId && c.code == row.code then row else c)).filter
        (liveCodeFor uid t2) = [row]
  | [] => by
    intro _ _ hany _
    simp at hany
  | x :: xs => by
    intro hdist hdead hany hlive
    have hx := List.pairwise_cons.mp hdist
    cases hk : (x.userId == row.userId && x.code == row.code) with
    | true =>
      have hmapxs : xs.map (fun c => if c.userId == row.userId && c.code == row.code then row else c) = xs := by
        have hpt : ∀ c ∈ xs, (if c.userId == row.userId && c.code == row.code then row else c) = c := by
          intro c hc
          have hkc : (c.userId == row.userId && c.code == row.code) = false := by
            cases hcc : (c.userId == row.userId && c.code == row.code) with
            | false => rfl
            | true =>
              simp only [Bool.and_eq_true, beq_iff_eq] at hk hcc
              rcases hx.1 c hc with hne | hne
              · exact absurd (hk.1.trans hcc.1.symm) hne
              · exact absurd (hk.2.trans hcc.2.symm) hne
          simp [hkc]
        calc xs.map (fun c => if c.userId == row.userId && c.code == row.code then row else c)
            = xs.map (fun c => c) := List.map_congr_left hpt
          _ = xs := List.map_id' xs
      simp only [List.map_cons, hk, if_true, hmapxs]
      rw [List.filter_cons_of_pos (by simpa using hlive)]
      rw [List.filter_eq_nil_iff.mpr
        (fun c hc => by simp [hdead c (List.mem_cons_of_mem x hc)])]
    | false =>
      have hdx : liveCodeFor uid t2 x = false := hdead x (List.mem_cons_self x xs)
      have hanyxs : xs.any (fun c => c.userId == row.userId && c.code == row.code) = true := by
        rw [List.any_cons, hk] at hany
        simpa using hany
      simp only [List.map_cons, hk, Bool.false_eq_true, if_false]
      rw [List.filter_cons_of_neg (by simp [hdx])]
      exact map_key_filter xs hx.2 (fun c hc => hdead c (List.mem_cons_of_mem x hc)) hanyxs hlive

theorem filter_live_upsert_eq_single {codes : List CodeRow} {uid n1 t2 : Nat} {row : CodeRow}
    (hdist : codes.Pairwise (fun a b => a.userId ≠ b.userId ∨ a.code ≠ b.code))
    (hdead : ∀ c ∈ codes, liveCodeFor uid n1 c = false)
    (hlive : liveCodeFor uid t2 row = true) (hle : n1 ≤ t2) :
    (upsertCode codes row).filter (liveCodeFor uid t2) = [row] := by
  have hdead2 : ∀ c ∈ codes, liveCodeFor uid t2 c = false :=
    fun c hc => liveCodeFor_false_future (hdead c hc) hle
  unfold upsertCode
  cases hany : codes.any (fun c => c.userId == row.userId && c.code == row.code) with
  | false =>
    simp only [Bool.false_eq_true, if_false]
    rw [List.filter_append]
    rw [List.filter_eq_nil_iff.mpr (fun c hc => by simp [hdead2 c hc])]
    simp [hlive]
  | true =>
    simp only [if_true]
    exact map_key_filter codes hdist hdead2 hany hlive

theorem filter_live_upsert_eq_nil {codes : List CodeRow} {uid n1 t3 : Nat} {row : CodeRow}
    (hdead : ∀ c ∈ codes, liveCodeFor uid n1 c = false)
    (hrowdead : liveCodeFor uid t3 row = false) (hle : n1 ≤ t3) :
    (upsertCode codes row).filter (liveCodeFor uid t3) = [] := by
  have hdead3 : ∀ c ∈ codes, liveCodeFor uid t3 c = false :=
    fun c hc => liveCodeFor_false_future (hdead c hc) hle
  unfold upsertCode
  split
  · rw [List.filter_eq_nil_iff]
    intro a ha
    obtain ⟨c, hc, hfc⟩ := List.mem_map.mp ha
    by_cases hkc : (c.userId == row.userId && c.code == row.code) = true
    · rw [if_pos hkc] at hfc
      subst hfc
      simp [hrowdead]
    · rw [if_neg hkc] at hfc
      subst hfc
      simp [hdead3 c hc]
  · rw [List.filter_append]
    rw [List.filter_eq_nil_iff.mpr (fun c hc => by simp [hdead3 c hc])]
    simp [hrowdead]

/-! ### C4: CreateCode conflict before expiry, success after expiry -/

/-- C4: after a successful CreateCode, a second call for the same user at
any instant before the issued code's expiry fails with the conflict
error reporting the existing code, and a call at any instant at or after
the expiry (with working store, cache and generator) succeeds with the
freshly generated code. -/
theorem createCode_conflict_then_fresh
    (env1 env2 env3 : Env) (st st2 : St) (uid ttl ttl2 ttl3 t2 t3 : Nat)
    (code1 c2 c3 : String)
    (hdist : st.db.codes.Pairwise (fun a b => a.userId ≠ b.userId ∨ a.code ≠ b.code))
    (h1 : createCode env1 st { userId := uid, ttl := ttl } = (.ok code1, st2))
    (ht2a : st.now ≤ t2) (ht2b : t2 < st.now + ttl)
    (ht3 : st.now + ttl ≤ t3)
    (henv2q : env2.codeQueryFails = false) (henv2g : env2.newRefreshToken = some c2)
    (henv3q : env3.codeQueryFails = false) (henv3g : env3.newRefreshToken = some c3)
    (henv3i : env3.codeInsertFails = false) (henv3c : env3.cacheSetFails = false) :
    (createCode env2 { st2 with now := t2 } { userId := uid, ttl := ttl2 }).1
        = .err (.codeExists code1)
    ∧ (createCode env3 { st2 with now := t3 } { userId := uid, ttl := ttl3 }).1 = .ok c3 := by
  obtain ⟨hg, hq, hdead0, hins, hcache, hcodes, hrest⟩ := createCode_ok_inv h1
  have hdead : ∀ c ∈ st.db.codes, liveCodeFor uid st.now c = false := by
    intro c hc
    have hnc := List.filter_eq_nil_iff.mp hdead0 c hc
    simpa using hnc
  have hlive2 : liveCodeFor uid t2
      ({ userId := uid, code := code1, expiresAt := st.now + ttl } : CodeRow) = true := by
    unfold liveCodeFor
    simp [ht2b]
  have hrowdead3 : liveCodeFor uid t3
      ({ userId := uid, code := code1, expiresAt := st.now + ttl } : CodeRow) = false := by
    unfold liveCodeFor
    simp [Nat.not_lt.mpr ht3]
  constructor
  · have hfc : findCodeByUserID env2 { st2 with now := t2 } uid =
        (some [{ userId := uid, code := code1, expiresAt := st.now + ttl }], none) := by
      unfold findCodeByUserID
      simp only [henv2q, Bool.false_eq_true, if_false]
      rw [show ({ st2 with now := t2 } : St).db.codes = st2.db.codes from rfl, hcodes]
      rw [filter_live_upsert_eq_single hdist hdead hlive2 ht2a]
      simp
    unfold createCode
    rw [henv2g]
    unfold createCodeWith
    rw [hfc]
  · have hfc3 : findCodeByUserID env3 { st2 with now := t3 } uid = (none, none) := by
      unfold findCodeByUserID
      simp only [henv3q, Bool.false_eq_true, if_false]
      rw [show ({ st2 with now := t3 } : St).db.codes = st2.db.codes from rfl, hcodes]
      rw [filter_live_upsert_eq_nil hdead hrowdead3 (le_trans (Nat.le_add_right _ _) ht3)]
      simp
    unfold createCode
    rw [henv3g]
    unfold createCodeWith
    rw [hfc3]
    unfold createReferralCode referralRedisCreate
    simp [henv3i, henv3c]

/-- State after a successful first CreateCode from the empty state. -/
def st2C4 : St := (createCode envOK st0 { userId := 1, ttl := 10 }).2

/-- C4 witness: conflict at clock 5, fresh success at clock 12. -/
theorem createCode_conflict_then_fresh_witness :
    st0.db.codes.Pairwise (fun a b => a.userId ≠ b.userId ∨ a.code ≠ b.code) ∧
    createCode envOK st0 { userId := 1, ttl := 10 } = (.ok "rt1", st2C4) ∧
    st0.now ≤ 5 ∧ 5 < st0.now + 10 ∧ st0.now + 10 ≤ 12 ∧
    envOK.codeQueryFails = false ∧ envOK.newRefreshToken = some "rt1" ∧
    envOK.codeInsertFails = false ∧ envOK.cacheSetFails = false ∧
    ((createCode envOK { st2C4 with now := 5 } { userId := 1, ttl := 20 }).1
        = .err (.codeExists "rt1")
      ∧ (createCode envOK { st2C4 with now := 12 } { userId := 1, ttl := 20 }).1 = .ok "rt1") :=
  ⟨List.Pairwise.nil, by decide, by decide, by decide, by decide, rfl, rfl, rfl, rfl,
    createCode_conflict_then_fresh envOK envOK envOK st0 st2C4 1 10 20 20 5 12 "rt1" "rt1" "rt1"
      List.Pairwise.nil (by decide) (by decide) (by decide) (by decide) rfl rfl rfl rfl rfl rfl⟩

/-! ### C5: CreateCode / cache-lookup round trip -/

/-- C5: for every user id and positive ttl, a successful CreateCode
followed immediately by a cache lookup of the returned code yields the
issuing user's id. -/
theorem createCode_cache_roundtrip (env env2 : Env) (st st2 : St) (uid ttl : Nat) (code : String)
    (httl : 0 < ttl)
    (h : createCode env st { userId := uid, ttl := ttl } = (.ok code, st2))
    (henv2 : env2.redisGetConnFails = false) :
    findByReferralCode env2 st2 code = .ok uid := by
  obtain ⟨hg, hq, hdead0, hins, hcache, hcodes, hus, htk, hed, hcach, hnw⟩ := createCode_ok_inv h
  unfold findByReferralCode
  simp only [henv2, Bool.false_eq_true, if_false]
  unfold cacheLookup
  rw [hcach, hnw]
  unfold cacheSet
  rw [List.find?_cons_of_pos _ (by simp [httl])]

/-- C5 witness. -/
theorem createCode_cache_roundtrip_witness :
    0 < 10 ∧
    createCode envOK st0 { userId := 1, ttl := 10 } = (.ok "rt1", st2C4) ∧
    envOK.redisGetConnFails = false ∧
    findByReferralCode envOK st2C4 "rt1" = .ok 1 :=
  ⟨by decide, by decide, rfl,
    createCode_cache_roundtrip envOK envOK st0 st2C4 1 10 "rt1" (by decide) (by decide) rfl⟩

/-! ### C6: a cache-write failure fails CreateCode but keeps the store row -/

theorem mem_upsertCode_self (codes : List CodeRow) (row : CodeRow) : row ∈ upsertCode codes row := by
  unfold upsertCode
  split
  · rename_i hany
    obtain ⟨c, hc, hkey⟩ := List.any_eq_true.mp hany
    exact List.mem_map.mpr ⟨c, hc, by rw [if_pos hkey]⟩
  · exact List.mem_append_right _ (List.mem_singleton.mpr rfl)

/-- C6: when the query finds no live code and the store insert succeeds
but the cache write fails, CreateCode returns the cache error while the
persisted code row remains in the store and the cache is unchanged. -/
theorem createCode_cache_failure_keeps_store (env : Env) (st : St) (uid ttl : Nat) (code : String)
    (hg : env.newRefreshToken = some code)
    (hq : env.codeQueryFails = false)
    (hnolive : st.db.codes.filter (liveCodeFor uid st.now) = [])
    (hins : env.codeInsertFails = false)
    (hcache : env.cacheSetFails = true) :
    (createCode env st { userId := uid, ttl := ttl }).1
        = .err (.wrap "error setting referral code in Redis" .redisConnErr)
    ∧ ({ userId := uid, code := code, expiresAt := st.now + ttl } : CodeRow)
        ∈ (createCode env st { userId := uid, ttl := ttl }).2.db.codes
    ∧ (createCode env st { userId := uid, ttl := ttl }).2.cache = st.cache := by
  have hred : createCode env st { userId := uid, ttl := ttl } =
      (.err (.wrap "error setting referral code in Redis" .redisConnErr),
       { st with db := { st.db with
          codes := upsertCode st.db.codes { userId := uid, code := code, expiresAt := st.now + ttl } } }) := by
    unfold createCode
    rw [hg]
    unfold createCodeWith findCodeByUserID
    simp only [hq, Bool.false_eq_true, if_false]
    rw [hnolive]
    simp only [List.isEmpty_nil, if_true]
    unfold createReferralCode referralRedisCreate
    simp [hins, hcache]
  rw [hred]
  exact ⟨rfl, mem_upsertCode_self _ _, rfl⟩

/-- Environment whose Redis SET fails. -/
def envW6 : Env := { envOK with cacheSetFails := true }

/-- C6 witness. -/
theorem createCode_cache_failure_keeps_store_witness :
    envW6.newRefreshToken = some "rt1" ∧
    envW6.codeQueryFails = false ∧
    st0.db.codes.filter (liveCodeFor 1 st0.now) = [] ∧
    envW6.codeInsertFails = false ∧
    envW6.cacheSetFails = true ∧
    ((createCode envW6 st0 { userId := 1, ttl := 10 }).1
        = .err (.wrap "error setting referral code in Redis" .redisConnErr)
      ∧ ({ userId := 1, code := "rt1", expiresAt := st0.now + 10 } : CodeRow)
          ∈ (createCode envW6 st0 { userId := 1, ttl := 10 }).2.db.codes
      ∧ (createCode envW6 st0 { userId := 1, ttl := 10 }).2.cache = st0.cache) :=
  ⟨rfl, rfl, rfl, rfl, rfl,
    createCode_cache_failure_keeps_store envW6 st0 1 10 "rt1" rfl rfl rfl rfl rfl⟩

/-! ### C7: SignUp with an unknown referral code fails and writes nothing -/

/-- C7: a SignUp whose non-empty referral code misses the cache returns
the wrapped referral-not-found error and leaves the state untouched (in
particular, no User row is created); the store is never consulted for
the code. -/
theorem signup_unknown_referral_code (env : Env) (st : St) (input : SignUpInput)
    (hcode : input.referralCode ≠ "")
    (hconn : env.redisGetConnFails = false)
    (hmiss : cacheLookup st input.referralCode = none) :
    signUp env st input =
      (.error (.wrap "failed to find referral code" (.referralCodeNotFound input.referralCode)), st) := by
  unfold signUp
  rw [if_pos hcode]
  unfold findByReferralCode
  simp only [hconn, Bool.false_eq_true, if_false]
  rw [hmiss]

/-- C7 witness. -/
theorem signup_unknown_referral_code_witness :
    ("nope" : String) ≠ "" ∧
    envOK.redisGetConnFails = false ∧
    cacheLookup st0 "nope" = none ∧
    signUp envOK st0 { email := "a@x", password := "pw", referralCode := "nope" } =
      (.error (.wrap "failed to find referral code" (.referralCodeNotFound "nope")), st0) :=
  ⟨by decide, rfl, rfl,
    signup_unknown_referral_code envOK st0 { email := "a@x", password := "pw", referralCode := "nope" }
      (by decide) rfl rfl⟩

/-! ### C8: SignUp with an empty referral code ignores cache and edges -/

theorem userCreate_ok_frame {env : Env} {db db2 : DBState} {u : UserRow}
    (h : userCreate env db u = .ok db2) :
    db2.tokens = db.tokens ∧ db2.edges = db.edges ∧ db2.codes = db.codes := by
  unfold userCreate at h
  split at h
  · exact absurd h (by simp)
  · split at h
    · injection h with h
      subst h
      exact ⟨rfl, rfl, rfl⟩
    · split at h
      · exact absurd h (by simp)
      · injection h with h
        subst h
        exact ⟨rfl, rfl, rfl⟩

theorem createReferral_ok_frame {env : Env} {db db2 : DBState} {e : EdgeRow}
    (h : createReferral env db e = .ok db2) :
    db2.users = db.users ∧ db2.tokens = db.tokens ∧ db2.codes = db.codes := by
  unfold createReferral at h
  split at h
  · exact absurd h (by simp)
  · split at h
    · injection h with h
      subst h
      exact ⟨rfl, rfl, rfl⟩
    · injection h with h
      subst h
      exact ⟨rfl, rfl, rfl⟩

theorem createSession_cache_param (env : Env) (st : St) (c2 : List CacheEntry) (uid : Nat) :
    createSession env { st with cache := c2 } uid
      = ((createSession env st uid).1, { (createSession env st uid).2 with cache := c2 }) := by
  unfold createSession
  cases hj : env.jwtFails with
  | true => rfl
  | false =>
    cases hr : env.newRefreshToken with
    | none => rfl
    | some rt =>
      simp only [show ({ st with cache := c2 } : St).db = st.db from rfl,
                 show ({ st with cache := c2 } : St).now = st.now from rfl,
                 show ({ st with cache := c2 } : St).cache = c2 from rfl]
      cases hc : refreshTokenCreate env st.db
          { userId := uid, refreshToken := rt, expiresAt := st.now + env.refreshTokenTTL } with
      | error e => simp [hc]
      | ok db2 => simp [hc]

theorem createUserWrites_cache_param (env : Env) (st : St) (c2 : List CacheEntry)
    (user : UserRow) (rid : Nat) :
    createUserWrites env { st with cache := c2 } user rid
      = ((createUserWrites env st user rid).1, { (createUserWrites env st user rid).2 with cache := c2 }) := by
  unfold createUserWrites
  simp only [show ({ st with cache := c2 } : St).db = st.db from rfl]
  cases huc : userCreate env st.db user with
  | error e => rfl
  | ok txdb1 =>
    dsimp only
    by_cases hr : rid = 0
    · subst hr
      cases hcf : env.commitFails with
      | true => rfl
      | false => exact createSession_cache_param env { st with db := txdb1 } c2 user.userId
    · rw [if_pos hr, if_pos hr]
      cases hce : createReferral env txdb1 { userId := user.userId, referredBy := rid } with
      | error e => rfl
      | ok txdb2 =>
        dsimp only
        cases hcf : env.commitFails with
        | true => rfl
        | false => exact createSession_cache_param env { st with db := txdb2 } c2 user.userId

theorem createUser_cache_param (env : Env) (st : St) (c2 : List CacheEntry)
    (input : CreateUserInput) :
    createUser env { st with cache := c2 } input
      = ((createUser env st input).1, { (createUser env st input).2 with cache := c2 }) := by
  unfold createUser
  have hfe : findByEmail env { st with cache := c2 } input.email = findByEmail env st input.email := rfl
  rw [hfe]
  cases hf : findByEmail env st input.email with
  | ok u => rfl
  | error e =>
    cases hh : env.hashFails with
    | true => rfl
    | false =>
      cases hb : env.beginTxFails with
      | true => rfl
      | false =>
        exact createUserWrites_cache_param env st c2
          { userId := env.newUserId, email := input.email, passwordHash := env.hashFn input.password }
          input.referralId

theorem createUser_frame (env : Env) (st : St) (input : CreateUserInput) :
    (createUser env st input).2.db.codes = st.db.codes
    ∧ (createUser env st input).2.cache = st.cache
    ∧ (createUser env st input).2.now = st.now
    ∧ (input.referralId = 0 → (createUser env st input).2.db.edges = st.db.edges) := by
  unfold createUser
  cases hf : findByEmail env st input.email with
  | ok u => exact ⟨rfl, rfl, rfl, fun _ => rfl⟩
  | error e =>
    cases hh : env.hashFails with
    | true => exact ⟨rfl, rfl, rfl, fun _ => rfl⟩
    | false =>
      cases hb : env.beginTxFails with
      | true => exact ⟨rfl, rfl, rfl, fun _ => rfl⟩
      | false =>
        unfold createUserWrites
        cases huc : userCreate env st.db
            { userId := env.newUserId, email := input.email, passwordHash := env.hashFn input.password } with
        | error e2 => exact ⟨rfl, rfl, rfl, fun _ => rfl⟩
        | ok txdb1 =>
          have hf1 := userCreate_ok_frame huc
          dsimp only
          by_cases hr : input.referralId = 0
          · rw [if_neg (show ¬(input.referralId ≠ 0) from by simp [hr])]
            cases hcf : env.commitFails with
            | true => exact ⟨rfl, rfl, rfl, fun _ => rfl⟩
            | false =>
              have hs := createSession_frame env { st with db := txdb1 } env.newUserId
              exact ⟨hs.2.2.1.trans hf1.2.2, hs.2.2.2.1, hs.2.2.2.2,
                fun _ => hs.2.1.trans hf1.2.1⟩
          · rw [if_pos hr]
            cases hce : createReferral env txdb1
                { userId := env.newUserId, referredBy := input.referralId } with
            | error e2 => exact ⟨rfl, rfl, rfl, fun _ => rfl⟩
            | ok txdb2 =>
              have hf2 := createReferral_ok_frame hce
              cases hcf : env.commitFails with
              | true => exact ⟨rfl, rfl, rfl, fun _ => rfl⟩
              | false =>
                have hs := createSession_frame env { st with db := txdb2 } env.newUserId
                exact ⟨hs.2.2.1.trans (hf2.2.2.trans hf1.2.2), hs.2.2.2.1, hs.2.2.2.2,
                  fun hr0 => absurd hr0 hr⟩

/-- C8: a SignUp with the empty referral code is exactly a createUser
call with the nil referral id: the referral cache is never read (the
outcome and resulting database are the same for every cache content, and
the cache is returned unchanged), no ReferralEdge row is written, and
the transactional phase touches neither the code table nor the cache. -/
theorem signup_empty_code_frame (env : Env) (st : St) (input : SignUpInput)
    (hcode : input.referralCode = "") :
    signUp env st input
        = createUser env st { email := input.email, password := input.password, referralId := 0 }
    ∧ (∀ c2 : List CacheEntry,
        (signUp env { st with cache := c2 } input).1 = (signUp env st input).1
        ∧ (signUp env { st with cache := c2 } input).2.db = (signUp env st input).2.db
        ∧ (signUp env { st with cache := c2 } input).2.cache = c2)
    ∧ (signUp env st input).2.db.edges = st.db.edges
    ∧ (signUp env st input).2.db.codes = st.db.codes
    ∧ (signUp env st input).2.cache = st.cache := by
  have hsu : ∀ s : St, signUp env s input
      = createUser env s { email := input.email, password := input.password, referralId := 0 } := by
    intro s
    unfold signUp
    rw [if_neg (by simp [hcode])]
  have hframe := createUser_frame env st
    { email := input.email, password := input.password, referralId := 0 }
  refine ⟨hsu st, ?_, ?_, ?_, ?_⟩
  · intro c2
    rw [hsu st, hsu { st with cache := c2 }]
    rw [createUser_cache_param env st c2
      { email := input.email, password := input.password, referralId := 0 }]
    exact ⟨rfl, rfl, rfl⟩
  · rw [hsu st]
    exact hframe.2.2.2 rfl
  · rw [hsu st]
    exact hframe.1
  · rw [hsu st]
    exact hframe.2.1

/-- C8 witness. -/
theorem signup_empty_code_frame_witness :
    ("" : String) = "" ∧
    ((signUp envOK st0 { email := "a@x", password := "pw", referralCode := "" }).2.db.edges
        = st0.db.edges
      ∧ (signUp envOK st0 { email := "a@x", password := "pw", referralCode := "" }).2.cache
        = st0.cache) :=
  ⟨rfl,
    (signup_empty_code_frame envOK st0 { email := "a@x", password := "pw", referralCode := "" }
      rfl).2.2.1,
    (signup_empty_code_frame envOK st0 { email := "a@x", password := "pw", referralCode := "" }
      rfl).2.2.2.2⟩

/-! ### C9: the email-in-use error appears exactly when the pre-check finds a user -/

theorem userCreate_error_shape {env : Env} {db : DBState} {u : UserRow} {e : Err}
    (h : userCreate env db u = .error e) : e = .execErr := by
  unfold userCreate at h
  split at h
  · injection h with h
    exact h.symm
  · split at h
    · exact absurd h (by simp)
    · split at h
      · injection h with h
        exact h.symm
      · exact absurd h (by simp)

theorem createReferral_error_shape {env : Env} {db : DBState} {ed : EdgeRow} {e : Err}
    (h : createReferral env db ed = .error e) : e = .execErr := by
  unfold createReferral at h
  split at h
  · injection h with h
    exact h.symm
  · split at h
    · exact absurd h (by simp)
    · exact absurd h (by simp)

theorem refreshTokenCreate_error_shape {env : Env} {db : DBState} {t : TokenRow} {e : Err}
    (h : refreshTokenCreate env db t = .error e) :
    e = .wrap "error inserting or updating refresh token" .execErr := by
  unfold refreshTokenCreate at h
  split at h
  · injection h with h
    exact h.symm
  · split at h
    · exact absurd h (by simp)
    · exact absurd h (by simp)

theorem createSession_error_shape {env : Env} {st : St} {uid : Nat} {e : Err}
    (h : (createSession env st uid).1 = .error e) :
    e = .signErr ∨ e = .randomErr
      ∨ e = .wrap "error inserting or updating refresh token" .execErr := by
  unfold createSession at h
  cases hj : env.jwtFails with
  | true =>
    rw [hj] at h
    simp at h
    exact Or.inl h.symm
  | false =>
    rw [hj] at h
    simp only [Bool.false_eq_true, if_false] at h
    cases hrt : env.newRefreshToken with
    | none =>
      rw [hrt] at h
      simp at h
      exact Or.inr (Or.inl h.symm)
    | some rt =>
      rw [hrt] at h
      dsimp only at h
      cases hc : refreshTokenCreate env st.db
          { userId := uid, refreshToken := rt, expiresAt := st.now + env.refreshTokenTTL } with
      | error e2 =>
        rw [hc] at h
        simp at h
        exact Or.inr (Or.inr (h.symm ▸ refreshTokenCreate_error_shape hc))
      | ok db2 =>
        rw [hc] at h
        simp at h

theorem createUserWrites_not_emailInUse {env : Env} {st : St} {user : UserRow} {rid : Nat}
    (h : (createUserWrites env st user rid).1 = .error .emailInUse) : False := by
  unfold createUserWrites at h
  cases huc : userCreate env st.db user with
  | error e2 =>
    rw [huc] at h
    simp at h
    have := userCreate_error_shape huc
    rw [h] at this
    exact absurd this (by simp)
  | ok txdb1 =>
    rw [huc] at h
    dsimp only at h
    by_cases hr : rid = 0
    · rw [if_neg (show ¬(rid ≠ 0) from by simp [hr])] at h
      cases hcf : env.commitFails with
      | true =>
        rw [hcf] at h
        simp at h
      | false =>
        rw [hcf] at h
        simp only [Bool.false_eq_true, if_false] at h
        rcases createSession_error_shape h with h2 | h2 | h2 <;> exact absurd h2 (by simp)
    · rw [if_pos hr] at h
      cases hce : createReferral env txdb1 { userId := user.userId, referredBy := rid } with
      | error e2 =>
        rw [hce] at h
        simp at h
        have := createReferral_error_shape hce
        rw [h] at this
        exact absurd this (by simp)
      | ok txdb2 =>
        rw [hce] at h
        dsimp only at h
        cases hcf : env.commitFails with
        | true =>
          rw [hcf] at h
          simp at h
        | false =>
          rw [hcf] at h
          simp only [Bool.false_eq_true, if_false] at h
          rcases createSession_error_shape h with h2 | h2 | h2 <;> exact absurd h2 (by simp)

/-- C9: createUser returns the email-already-in-use error exactly when
the FindByEmail pre-check succeeded; when the pre-check fails with any
error — not-found or a store failure alike — the call proceeds to the
transactional write phase (given hashing and BeginTxx succeed). -/
theorem createUser_emailInUse_iff (env : Env) (st : St) (input : CreateUserInput) :
    ((createUser env st input).1 = .error .emailInUse
        ↔ ∃ u, findByEmail env st input.email = .ok u)
    ∧ (∀ e, findByEmail env st input.email = Except.error e →
        env.hashFails = false → env.beginTxFails = false →
        createUser env st input = createUserWrites env st
          { userId := env.newUserId, email := input.email, passwordHash := env.hashFn input.password }
          input.referralId) := by
  constructor
  · cases hf : findByEmail env st input.email with
    | ok u =>
      constructor
      · intro _
        exact ⟨u, rfl⟩
      · intro _
        unfold createUser
        rw [hf]
    | error e0 =>
      constructor
      · intro hcu
        exfalso
        unfold createUser at hcu
        rw [hf] at hcu
        dsimp only at hcu
        cases hh : env.hashFails with
        | true =>
          rw [hh] at hcu
          simp at hcu
        | false =>
          rw [hh] at hcu
          simp only [Bool.false_eq_true, if_false] at hcu
          cases hb : env.beginTxFails with
          | true =>
            rw [hb] at hcu
            simp at hcu
          | false =>
            rw [hb] at hcu
            simp only [Bool.false_eq_true, if_false] at hcu
            exact createUserWrites_not_emailInUse hcu
      · rintro ⟨u, hu⟩
        exact absurd hu (by simp)
  · intro e hf hh hb
    unfold createUser
    rw [hf]
    simp only [hh, hb, Bool.false_eq_true, if_false]

/-- C9 witness: on the empty store the pre-check fails with not-found,
no email-in-use error is produced, and the call reduces to the write
phase. -/
theorem createUser_emailInUse_iff_witness :
    ((createUser envOK st0 { email := "a@x", password := "pw", referralId := 0 }).1
        = .error .emailInUse
      ↔ ∃ u, findByEmail envOK st0 "a@x" = .ok u) ∧
    findByEmail envOK st0 "a@x" = Except.error (.wrap "user not found" .sqlNoRows) ∧
    envOK.hashFails = false ∧ envOK.beginTxFails = false ∧
    createUser envOK st0 { email := "a@x", password := "pw", referralId := 0 }
      = createUserWrites envOK st0
        { userId := envOK.newUserId, email := "a@x", passwordHash := envOK.hashFn "pw" } 0 :=
  ⟨(createUser_emailInUse_iff envOK st0 { email := "a@x", password := "pw", referralId := 0 }).1,
    by decide, rfl, rfl,
    (createUser_emailInUse_iff envOK st0 { email := "a@x", password := "pw", referralId := 0 }).2
      (.wrap "user not found" .sqlNoRows) (by decide) rfl rfl⟩

/-! ### C10: the conflict branch of CreateCode and the res[0] access -/

/-- C10: the `res[0]` read in CreateCode's conflict branch happens before
the query error is inspected and is in bounds exactly under the
precondition that every non-nil result of FindCodeByUserID is non-empty:
results satisfying the precondition never reach the out-of-bounds panic,
and a non-nil empty slice panics regardless of the accompanying error. -/
theorem createCodeWith_index_safety :
    (∀ (find : Option (List CodeRow) × Option Err) (code : String) (env : Env) (st : St)
        (input : ReferralInput),
        (∀ l, find.1 = some l → l ≠ []) →
        (createCodeWith find code env st input).1 ≠ .panicIndexOOB)
    ∧ (∀ (qerr : Option Err) (code : String) (env : Env) (st : St) (input : ReferralInput),
        (createCodeWith (some [], qerr) code env st input).1 = .panicIndexOOB) := by
  constructor
  · intro find code env st input hnn
    unfold createCodeWith
    cases hf1 : find.1 with
    | some res =>
      cases res with
      | nil => exact absurd rfl (hnn [] hf1)
      | cons c tl => simp
    | none =>
      cases hf2 : find.2 with
      | some e => simp
      | none =>
        dsimp only
        cases hcc : createReferralCode env st
            { referralCode := code, userId := input.userId, ttl := input.ttl } with
        | error e => simp
        | ok db2 =>
          dsimp only
          cases hrr : referralRedisCreate env { st with db := db2 }
              { referralCode := code, userId := input.userId, ttl := input.ttl } with
          | error e => simp
          | ok st3 => simp
  · intro qerr code env st input
    rfl

/-- C10 witness. -/
theorem createCodeWith_index_safety_witness :
    (∀ l : List CodeRow, ((none, none) : Option (List CodeRow) × Option Err).1 = some l → l ≠ []) ∧
    (createCodeWith (none, none) "c" envOK st0 { userId := 1, ttl := 10 }).1 ≠ .panicIndexOOB ∧
    (createCodeWith (some [], none) "c" envOK st0 { userId := 1, ttl := 10 }).1 = .panicIndexOOB :=
  ⟨fun l h => absurd h (by simp),
    createCodeWith_index_safety.1 (none, none) "c" envOK st0 { userId := 1, ttl := 10 }
      (fun l h => absurd h (by simp)),
    createCodeWith_index_safety.2 none "c" envOK st0 { userId := 1, ttl := 10 }⟩

end LinkBase
